import Mathlib

/-!
# Verification of the AI-RIS conversational orchestration core

A shallow embedding of the Python sources (`app_orchestrator.py`,
`long_term_memory.py`, `context_manager.py`, `gemini_api.py`,
`audio_player.py`) into Lean, with theorems about the input arbiter's
newest-wins coalescing, the barge-in interruption protocol, the
long-term memory store, prompt assembly, LLM failure handling, the
audio loudness computation, and the audio player's re-entrancy guard.

Conventions of the embedding:
* Python `time.time()` timestamps and `random.random()` draws are `ℚ`.
* Python `queue.Queue` / `collections.deque` become Lean `List`s; a
  `deque(maxlen=cap)` append is `dappend` (evicts the oldest element
  when full).
* Dict items that may lack a key (`item.get('timestamp', 0)`) become
  `Option` fields with the same default on read.
* Side-effecting methods become state-passing functions over explicit
  state structures; external calls (the LLM) become parameters of type
  `Except String String` (exception or returned text).
* Configuration is modelled with the defaults the code supplies at each
  `config.get(...)` site; prompt templates use the code's defaults.
* The embedding is sequential: each Python callback or loop iteration
  is one atomic Lean state transition.
-/

namespace AIRIS

/-- Append to a `collections.deque(maxlen=cap)`: when the deque already
holds `cap` elements the oldest (leftmost) element is evicted; a deque
with `maxlen=0` stays empty. -/
def dappend {α : Type} (cap : ℕ) (l : List α) (x : α) : List α :=
  if cap = 0 then []
  else if cap ≤ l.length then l.tail ++ [x]
  else l ++ [x]

/-! ## Long-term memory (`long_term_memory.py`)

`LongTermMemory` keeps `self.memories = deque(maxlen=max_entries)`
(default 100) and on `add_memory` does
`if memory and memory not in self.memories: append; _save_memories()`.
`_save_memories` serializes `list(self.memories)` to the JSON file;
`disk` records the list contents last written (the byte form produced
by `json.dump` is a function of that list) and `writes` counts file
writes. -/

structure LTM where
  memories : List String
  maxEntries : ℕ
  disk : Option (List String)
  writes : ℕ
deriving DecidableEq, Repr

/-- A freshly constructed store with no on-disk file (`_load_memories`
found nothing). -/
def LTM.empty (cap : ℕ) : LTM :=
  { memories := [], maxEntries := cap, disk := none, writes := 0 }

/-- `LongTermMemory.add_memory`: insert only a non-empty string that is
not already present; every actual insertion is followed by a save. -/
def add_memory (s : LTM) (memory : String) : LTM :=
  if memory ≠ "" ∧ memory ∉ s.memories then
    let ms := dappend s.maxEntries s.memories memory
    { s with memories := ms, disk := some ms, writes := s.writes + 1 }
  else s

/-- Run a sequence of `add_memory` calls. -/
def addAll (s : LTM) (l : List String) : LTM :=
  l.foldl add_memory s

/-! ## Input events and the mailbox (`app_orchestrator.py`)

The `llm_input_queue` holds dict items.  The STT callback enqueues
`{"source": "stt", "nickname", "content", "is_interruption", "timestamp"}`;
the chat callback enqueues `{"source": "chat", "nickname", "content"}`
(no `timestamp`, no `is_interruption` key); the idle worker enqueues
`{"source": "idle"}`.  Missing keys are read with defaults:
`item.get('timestamp', 0)` and `item.get('is_interruption', False)`. -/

inductive Source
  | stt
  | chat
  | idle
deriving DecidableEq, Repr

structure Item where
  source : Source
  nickname : String
  content : String
  is_interruption : Bool
  timestamp : Option ℚ
deriving DecidableEq, Repr

/-- `item.get('timestamp', 0)`. -/
def Item.key (it : Item) : ℚ := it.timestamp.getD 0

/-- The item built by `_stt_callback`. -/
def mkSttItem (nickname content : String) (isInt : Bool) (t : ℚ) : Item :=
  { source := Source.stt, nickname := nickname, content := content,
    is_interruption := isInt, timestamp := some t }

/-- The item built by `_chat_callback` (no timestamp / interruption keys). -/
def mkChatItem (user message : String) : Item :=
  { source := Source.chat, nickname := user, content := message,
    is_interruption := false, timestamp := none }

/-- The item built by `_idle_chatter_worker`. -/
def mkIdleItem : Item :=
  { source := Source.idle, nickname := "", content := "",
    is_interruption := false, timestamp := none }

/-- `a` sorts no later than `b` under
`sort(key=lambda x: x.get('timestamp', 0), reverse=True)`. -/
def keyGE (a b : Item) : Prop := b.key ≤ a.key

instance : DecidableRel keyGE := fun a b => inferInstanceAs (Decidable (b.key ≤ a.key))

instance : IsTotal Item keyGE := ⟨fun a b => le_total b.key a.key⟩

instance : IsTrans Item keyGE := ⟨fun _ _ _ h1 h2 => le_trans h2 h1⟩

/-- `all_pending_items.sort(key=lambda x: x.get('timestamp', 0), reverse=True)`:
a stable sort, descending by the timestamp key. -/
def sortByTimestampDesc (l : List Item) : List Item := l.insertionSort keyGE

/-- The selection the main loop performs on the drained mailbox:
the most recent interruption item if any interruption is pending,
otherwise the most recent item overall; every other drained item is
dropped (only logged as skipped). -/
def selectItem (pending : List Item) : Option Item :=
  match (sortByTimestampDesc pending).filter (fun it => it.is_interruption) with
  | i :: _ => some i
  | [] => (sortByTimestampDesc pending).head?

/-! ## Orchestrator state (`app_orchestrator.py`, `gemini_api.py`)

`GeminiAPI.history` is a `deque(maxlen=max_history_length)` of
`{'role', 'parts': [text]}` entries. -/

inductive Role
  | user
  | model
  | system
deriving DecidableEq, Repr

structure HistMsg where
  role : Role
  text : String
deriving DecidableEq, Repr

/-- `self.interrupted_response`, as stored by `_stt_callback`. -/
structure InterruptionRecord where
  response_id : String
  by_nickname : String
  by_text : String
  timestamp : ℚ
deriving DecidableEq, Repr

/-- A `tts_queue` entry `{"text", "response_id"}`. -/
structure TtsTask where
  text : String
  response_id : String
deriving DecidableEq, Repr

/-- The configuration keys the embedded functions read; `none` means the
key is absent and the code's inline default applies. -/
structure Config where
  response_chance : Option ℚ
deriving DecidableEq, Repr

/-- `self.config.get("chat", {}).get("response_chance", 0.1)`. -/
def responseChance (cfg : Config) : ℚ := cfg.response_chance.getD (1 / 10)

structure OrchState where
  is_playing : Bool
  current_response_id : Option String
  interrupted_response : Option InterruptionRecord
  history : List HistMsg
  histCap : ℕ
  llm_queue : List Item
  tts_queue : List TtsTask
  recent_chats : List String
  chatCap : ℕ
deriving DecidableEq, Repr

/-- The system message `_stt_callback` appends on an interruption:
`[시스템: AI 응답이 사용자 '<nickname>'의 발언 '<text>'로 인해 중단되었습니다.]`. -/
def interruptMsg (nickname text : String) : String :=
  "[시스템: AI 응답이 사용자 '" ++
    (nickname ++ ("'의 발언 '" ++ (text ++ "'로 인해 중단되었습니다.]")))

/-- The system message `run_main_loop` appends when consuming the
pending interruption record. -/
def ackMsg (nickname : String) : String :=
  "[시스템: 이전 응답이 '" ++
    (nickname ++ "'의 발언으로 중단되었습니다. 이제 새로운 질문에 답변하세요.]")

/-- The fixed apology `GeminiAPI.generate_response` returns when the
model call raises. -/
def apologyText : String := "죄송해요, 지금은 답변을 생성할 수 없어요."

/-- `GeminiAPI.add_system_message` (a capped-deque append). -/
def addSystemMessage (s : OrchState) (msg : String) : OrchState :=
  { s with history := dappend s.histCap s.history { role := Role.system, text := msg } }

/-- `AppOrchestrator._stt_callback(nickname, text)` at time `now`.
If the audio player is playing: stop playback, store the
InterruptionRecord (only when a current response id is bound), purge the
TTS queue, keep only the two most recent queued LLM items, and append
the interruption system message.  In every case: refine the text
(`refine_stt_text` returns the raw text — the model call is commented
out in the source) and enqueue an STT item whose `is_interruption` flag
is whether `interrupted_response` is set. -/
def sttCallback (nickname text : String) (now : ℚ) (s : OrchState) : OrchState :=
  let s1 :=
    if s.is_playing then
      let sa := { s with is_playing := false }
      let sb :=
        match sa.current_response_id with
        | some rid =>
          let r : InterruptionRecord :=
            { response_id := rid, by_nickname := nickname, by_text := text, timestamp := now }
          { sa with interrupted_response := some r }
        | none => sa
      let sc := { sb with tts_queue := [] }
      let sd := { sc with llm_queue := sc.llm_queue.drop (sc.llm_queue.length - 2) }
      addSystemMessage sd (interruptMsg nickname text)
    else s
  let refined := text
  let item := mkSttItem nickname refined s1.interrupted_response.isSome now
  { s1 with llm_queue := s1.llm_queue ++ [item] }

/-- `AppOrchestrator._chat_callback(chat)` with Bernoulli draw `rand`
(the value of `random.random()`): the line always enters the rolling
window; it is enqueued for the LLM only when the draw beats
`response_chance` (default 0.1) and the player is not speaking. -/
def chatCallback (cfg : Config) (user message : String) (rand : ℚ) (s : OrchState) :
    OrchState :=
  let line := "[" ++ (user ++ ("] " ++ message))
  let s1 := { s with recent_chats := dappend s.chatCap s.recent_chats line }
  if rand < responseChance cfg then
    if s1.is_playing then s1
    else { s1 with llm_queue := s1.llm_queue ++ [mkChatItem user message] }
  else s1

/-- `ContextManager._get_task_prompt` with the default config templates
(`idle_prompt` default and `user_prompt_template` default
`"{nickname}: {user_input}"`). -/
def taskPromptFor (item : Item) : String :=
  match item.source with
  | Source.idle => "Say something interesting."
  | Source.stt => item.nickname ++ (": " ++ item.content)
  | Source.chat => item.nickname ++ (": " ++ item.content)

/-- `GeminiAPI.generate_response(full_prompt, task_prompt)`: the `llm`
argument is the outcome of the `generate_content` call.  On success the
task prompt and the response are appended to the capped history and the
response text is returned; on any exception the history is untouched
and the fixed apology is returned (the exception is not propagated). -/
def generate_response (llm : Except String String) (taskPrompt : String)
    (cap : ℕ) (history : List HistMsg) : List HistMsg × String :=
  match llm with
  | Except.ok text =>
    (dappend cap (dappend cap history { role := Role.user, text := taskPrompt })
      { role := Role.model, text := text }, text)
  | Except.error _ => (history, apologyText)

/-- One iteration of `AppOrchestrator.run_main_loop` (entered once the
player is idle): drain the mailbox, select one item (interruptions
first, then most recent), bind a fresh response id, consume the pending
InterruptionRecord if the selected item is an interruption, generate,
and enqueue the response for TTS (unless the response is empty, in
which case the response id is cleared). -/
def mainLoopStep (llm : Except String String) (newRid : String) (s : OrchState) : OrchState :=
  if s.is_playing then s
  else
    match selectItem s.llm_queue with
    | none => { s with llm_queue := [] }
    | some item =>
      let s0 := { s with llm_queue := [], current_response_id := some newRid }
      let s1 :=
        if item.is_interruption then
          match s0.interrupted_response with
          | some r =>
            addSystemMessage { s0 with interrupted_response := none } (ackMsg r.by_nickname)
          | none => s0
        else s0
      let hr := generate_response llm (taskPromptFor item) s1.histCap s1.history
      let s2 := { s1 with history := hr.1 }
      if hr.2 = "" then { s2 with current_response_id := none }
      else { s2 with tts_queue := s2.tts_queue ++ [{ text := hr.2, response_id := newRid }] }

/-- Count of system-role history entries with exactly the text `m`. -/
def matchesSys (m : String) (e : HistMsg) : Bool :=
  e.role == Role.system && e.text == m

def countSys (history : List HistMsg) (m : String) : ℕ :=
  (history.filter (matchesSys m)).length

/-! ## Prompt assembly (`context_manager.py`) -/

/-- `"\n".join(xs)`. -/
def joinLines (xs : List String) : String := String.intercalate "\n" xs

/-- `"\n".join(previous_chats) or "(No previous chats)"`. -/
def previousChatText (chats : List String) : String :=
  if joinLines chats = "" then "(No previous chats)" else joinLines chats

/-- `"\n".join(recent_chats) or "(No recent chats)"`. -/
def recentChatText (chats : List String) : String :=
  if joinLines chats = "" then "(No recent chats)" else joinLines chats

/-- `LongTermMemory.get_all_memories_as_text`. -/
def memoriesText (memories : List String) : String :=
  if memories = [] then "No long-term memories yet."
  else joinLines (memories.map (fun m => "- " ++ m))

def roleStr : Role → String
  | Role.user => "user"
  | Role.model => "model"
  | Role.system => "system"

/-- `GeminiAPI.get_formatted_history`. -/
def formattedHistory (history : List HistMsg) : String :=
  if history = [] then "(No conversation history yet)"
  else joinLines (history.map (fun e => roleStr e.role ++ (": " ++ e.text)))

/-- The `core_memory_info` block of `ContextManager.build_prompt`:
empty (section skipped) when there are no core memories, otherwise a
header plus the summary. -/
def coreMemoryInfo (summary : String) : String :=
  if summary = "No core memories stored yet." then ""
  else "\n# Core Memory (Most Important Information)\n" ++ (summary ++ "\n")

/-- `ContextManager.build_prompt`: the f-string template, section by
section.  `datetimeInfo` stands for the formatted current local
date/time with weekday. -/
def buildPrompt (persona datetimeInfo coreSummary : String) (memories : List String)
    (history : List HistMsg) (item : Item) (previous recent : List String) : String :=
  "# System Persona\n" ++ (persona ++ ("\n\n# Current Date and Time\n" ++ (datetimeInfo ++ ("\n"
    ++ (coreMemoryInfo coreSummary
    ++ ("\n# Long-Term Memory\n" ++ (memoriesText memories
    ++ ("\n\n# Previous Live Chat Log\n" ++ (previousChatText previous
    ++ ("\n\n# Conversation History\n" ++ (formattedHistory history
    ++ ("\n\n# Recent Live Chat Log\n" ++ (recentChatText recent
    ++ ("\n\n# Current Task\n" ++ (taskPromptFor item ++ "\n")))))))))))))))

/-- Substring test on character lists (used to check which placeholder
literals occur in an assembled prompt). -/
def containsSub (hay pat : List Char) : Bool :=
  hay.tails.any (fun t => pat.isPrefixOf t)

/-! ## Audio loudness and playback (`audio_player.py`) -/

/-- The mean of squares of the int16 samples of a chunk:
`np.mean(audio_np.astype(np.float32)**2)`.  The RMS the code computes
is its square root. -/
def rmsSq (chunk : List ℤ) : ℚ :=
  (chunk.map (fun x => (Int.cast x : ℚ) ^ 2)).sum / (chunk.length : ℚ)

/-- `normalized_volume = (rms / 32768) * 10` — the value handed to the
volume callback (no clipping is applied). -/
def normalized_volume (rms : ℚ) : ℚ := rms / 32768 * 10

/-- `AudioPlayer` state: the `is_playing` event flag and whether
`self._stream` is an open stream. -/
structure PlayerState where
  is_playing : Bool
  stream_open : Bool
deriving DecidableEq, Repr

/-- `AudioPlayer.play_stream(generator)`: the guard
`if self.is_playing.is_set(): return` exits immediately without touching
the generator, the stream, or the flag.  The playing path is modelled
coarsely: the first chunk is consumed (an empty first chunk aborts), the
remaining chunks are consumed and played, and the `finally` block closes
the stream and clears the flag.  Returns the final state and the number
of generator elements consumed. -/
def play_stream (s : PlayerState) (gen : List (List ℤ)) : PlayerState × ℕ :=
  if s.is_playing then (s, 0)
  else
    match gen with
    | [] => ({ is_playing := false, stream_open := false }, 0)
    | first :: rest =>
      if first = [] then ({ is_playing := false, stream_open := false }, 1)
      else ({ is_playing := false, stream_open := false }, 1 + rest.length)

/-! ## Concrete fixture states -/

/-- An orchestrator state that is mid-playback of response `"r1"`. -/
def playingState : OrchState :=
  { is_playing := true, current_response_id := some "r1", interrupted_response := none,
    history := [], histCap := 20, llm_queue := [], tts_queue := [], recent_chats := [],
    chatCap := 20 }

/-- An idle orchestrator state. -/
def idleState : OrchState :=
  { is_playing := false, current_response_id := none, interrupted_response := none,
    history := [], histCap := 20, llm_queue := [], tts_queue := [], recent_chats := [],
    chatCap := 20 }

/-- An idle state with one chat item waiting in the mailbox. -/
def queuedState : OrchState :=
  { idleState with llm_queue := [mkChatItem "A" "hi"] }

end AIRIS

namespace AIRIS

/-! ## Theorems -/

lemma addAll_append (s : LTM) (a b : List String) :
    addAll s (a ++ b) = addAll (addAll s a) b := by
  simp [addAll, List.foldl_append]

/-- Inserting an already-present string is a no-op on the whole state. -/
lemma add_memory_of_mem (s : LTM) (m : String) (h : m ∈ s.memories) :
    add_memory s m = s := by
  simp [add_memory, h]

lemma addAll_of_mem (l : List String) (s : LTM) (h : ∀ m ∈ l, m ∈ s.memories) :
    addAll s l = s := by
  induction l with
  | nil => rfl
  | cons a t ih =>
    have ha : add_memory s a = s := add_memory_of_mem s a (h a (by simp))
    show addAll (add_memory s a) t = s
    rw [ha]
    exact ih fun m hm => h m (by simp [hm])

/-- Inserting fresh strings while there is room simply appends them in
order (no eviction). -/
lemma addAll_of_fresh (l : List String) (s : LTM)
    (hnodup : l.Nodup) (hne : ∀ m ∈ l, m ≠ "") (hfresh : ∀ m ∈ l, m ∉ s.memories)
    (hlen : s.memories.length + l.length ≤ s.maxEntries) :
    (addAll s l).memories = s.memories ++ l ∧
    (addAll s l).maxEntries = s.maxEntries := by
  induction l generalizing s with
  | nil => simp [addAll]
  | cons a t ih =>
    have hcond : a ≠ "" ∧ a ∉ s.memories := ⟨hne a (by simp), hfresh a (by simp)⟩
    have hlt : s.memories.length < s.maxEntries := by
      have := hlen
      simp only [List.length_cons] at this
      omega
    have hstep : add_memory s a =
        { s with memories := s.memories ++ [a], disk := some (s.memories ++ [a]),
                 writes := s.writes + 1 } := by
      have hc0 : s.maxEntries ≠ 0 := by omega
      have hc1 : ¬ s.maxEntries ≤ s.memories.length := by omega
      simp [add_memory, hcond, dappend, hc0, hc1]
    show (addAll (add_memory s a) t).memories = s.memories ++ (a :: t) ∧
         (addAll (add_memory s a) t).maxEntries = s.maxEntries
    rw [hstep]
    have hna : a ∉ t := (List.nodup_cons.mp hnodup).1
    have ih' := ih
      { s with memories := s.memories ++ [a], disk := some (s.memories ++ [a]),
               writes := s.writes + 1 }
      (List.nodup_cons.mp hnodup).2
      (fun m hm => hne m (by simp [hm]))
      (fun m hm => by
        show m ∉ s.memories ++ [a]
        simp only [List.mem_append, List.mem_singleton]
        rintro (h | rfl)
        · exact hfresh m (by simp [hm]) h
        · exact hna hm)
      (by
        show (s.memories ++ [a]).length + t.length ≤ s.maxEntries
        simp only [List.length_append, List.length_singleton]
        simp only [List.length_cons] at hlen
        omega)
    refine ⟨?_, ih'.2⟩
    rw [ih'.1]
    simp

/-- Once the store is full it stays full: any insert either is a no-op
or evicts exactly one element while appending one. -/
lemma add_memory_length_full (s : LTM) (m : String)
    (hfull : s.memories.length = s.maxEntries) (hpos : 0 < s.maxEntries) :
    (add_memory s m).memories.length = s.maxEntries ∧
    (add_memory s m).maxEntries = s.maxEntries := by
  unfold add_memory
  split
  · have hle : s.maxEntries ≤ s.memories.length := le_of_eq hfull.symm
    have h0 : s.maxEntries ≠ 0 := by omega
    simp only [dappend, h0, if_false, hle, if_true]
    constructor
    · simp only [List.length_append, List.length_tail, List.length_singleton]
      omega
    · trivial
  · exact ⟨hfull, rfl⟩

lemma addAll_length_full (l : List String) (s : LTM)
    (hfull : s.memories.length = s.maxEntries) (hpos : 0 < s.maxEntries) :
    (addAll s l).memories.length = s.maxEntries ∧
    (addAll s l).maxEntries = s.maxEntries := by
  induction l generalizing s with
  | nil => exact ⟨hfull, rfl⟩
  | cons a t ih =>
    have h1 := add_memory_length_full s a hfull hpos
    show (addAll (add_memory s a) t).memories.length = s.maxEntries ∧
         (addAll (add_memory s a) t).maxEntries = s.maxEntries
    have h2 := ih (add_memory s a) (h1.1.trans h1.2.symm) (h1.2 ▸ hpos)
    exact ⟨h2.1.trans h1.2, h2.2.trans h1.2⟩

/-- C5: Long-term memory insertion is idempotent: for every store state
and every string already present in the store, `add_memory` with that
string leaves the in-memory store unchanged and the on-disk JSON file
byte-identical — the whole state (memories, disk contents, write count)
is unchanged, so no write is performed. -/
theorem add_memory_idempotent (s : LTM) (m : String) (h : m ∈ s.memories) :
    add_memory s m = s ∧
    (add_memory s m).memories = s.memories ∧
    (add_memory s m).disk = s.disk ∧
    (add_memory s m).writes = s.writes := by
  have he := add_memory_of_mem s m h
  exact ⟨he, by rw [he], by rw [he], by rw [he]⟩

theorem add_memory_idempotent_witness :
    "fact a" ∈ (addAll (LTM.empty 100) ["fact a", "fact b"]).memories ∧
    add_memory (addAll (LTM.empty 100) ["fact a", "fact b"]) "fact a" =
      addAll (LTM.empty 100) ["fact a", "fact b"] :=
  ⟨by decide, (add_memory_idempotent (addAll (LTM.empty 100) ["fact a", "fact b"])
      "fact a" (by decide)).1⟩

/-- C6: Capped FIFO store: starting from an empty long-term memory with
cap 100, inserting N distinct non-empty strings and then re-inserting
each of them once produces a store of size exactly `min N 100`; and when
an insert of a genuinely new string occurs with the store full, the
oldest entry (the deque head) is evicted. -/
theorem ltm_capped_fifo (l : List String) (h1 : l.Nodup) (h2 : ∀ m ∈ l, m ≠ "") :
    (addAll (LTM.empty 100) (l ++ l)).memories.length = min l.length 100 ∧
    (∀ (s : LTM) (m : String), s.maxEntries = 100 → s.memories.length = 100 →
      m ≠ "" → m ∉ s.memories →
      (add_memory s m).memories = s.memories.tail ++ [m]) := by
  have e1 : (LTM.empty 100).memories = ([] : List String) := rfl
  have e2 : (LTM.empty 100).maxEntries = 100 := rfl
  constructor
  · by_cases hc : l.length ≤ 100
    · rw [addAll_append]
      have hp1 := addAll_of_fresh l (LTM.empty 100) h1 h2
        (by rw [e1]; intro m _ h; exact absurd h (List.not_mem_nil m))
        (by rw [e1, e2]; simpa using hc)
      have hmem : ∀ m ∈ l, m ∈ (addAll (LTM.empty 100) l).memories := by
        intro m hm
        rw [hp1.1, e1]
        simpa using hm
      rw [addAll_of_mem l _ hmem, hp1.1, e1]
      simp only [List.nil_append]
      omega
    · push_neg at hc
      have hfresh1 : ∀ m ∈ l.take 100, m ∉ (LTM.empty 100).memories := by
        rw [e1]; intro m _ h; exact absurd h (List.not_mem_nil m)
      have hp1 := addAll_of_fresh (l.take 100) (LTM.empty 100)
        (h1.sublist (List.take_sublist 100 l))
        (fun m hm => h2 m (List.take_subset 100 l hm)) hfresh1
        (by rw [e1, e2]; simp only [List.length_nil, Nat.zero_add]
            rw [List.length_take]; omega)
      have hlen1 : (addAll (LTM.empty 100) (l.take 100)).memories.length = 100 := by
        rw [hp1.1, e1, List.nil_append, List.length_take]
        omega
      have hrest := addAll_length_full (l.drop 100 ++ l) (addAll (LTM.empty 100) (l.take 100))
        (by rw [hlen1, hp1.2, e2]) (by rw [hp1.2, e2]; omega)
      have key : addAll (addAll (LTM.empty 100) (l.take 100)) (l.drop 100 ++ l)
          = addAll (LTM.empty 100) (l ++ l) := by
        rw [← addAll_append, ← List.append_assoc, List.take_append_drop]
      rw [← key, hrest.1, hp1.2, e2]
      omega
  · intro s m hcap hfull hne hnotmem
    have hle : s.maxEntries ≤ s.memories.length := by omega
    have h0 : s.maxEntries ≠ 0 := by omega
    simp [add_memory, hne, hnotmem, dappend, h0, hle]

theorem ltm_capped_fifo_witness :
    (addAll (LTM.empty 100) (["a", "b", "c"] ++ ["a", "b", "c"])).memories.length =
      min (["a", "b", "c"] : List String).length 100 ∧
    (∀ (s : LTM) (m : String), s.maxEntries = 100 → s.memories.length = 100 →
      m ≠ "" → m ∉ s.memories →
      (add_memory s m).memories = s.memories.tail ++ [m]) :=
  ltm_capped_fifo ["a", "b", "c"] (by decide) (by decide)

lemma mem_sortDesc {x : Item} {l : List Item} : x ∈ sortByTimestampDesc l ↔ x ∈ l :=
  (List.perm_insertionSort keyGE l).mem_iff

lemma sortDesc_sorted (l : List Item) : List.Sorted keyGE (sortByTimestampDesc l) :=
  List.sorted_insertionSort keyGE l

/-- C1: Newest-wins coalescing: when the main loop drains the mailbox
and at least one drained event is a Speech (STT) event, the single item
selected is a Speech event whose `received_at` timestamp is maximal
among all drained events (every other drained item is dropped — the
selection returns exactly one item).  The hypotheses state how a
reachable mailbox looks: STT items carry a positive `time.time()`
timestamp and other items carry none; only STT items can be marked
`is_interruption`; and any non-interruption STT item is older than
every interruption item (once `interrupted_response` is set it stays
set until the main loop drains the queue, so within one drained batch
interruption items are the newest STT items). -/
theorem newest_speech_wins (items : List Item)
    (h1 : ∀ it ∈ items, (it.source = Source.stt → it.timestamp ≠ none ∧ 0 < it.key) ∧
        (it.source ≠ Source.stt → it.timestamp = none ∧ it.is_interruption = false))
    (h2 : ∀ i ∈ items, ∀ j ∈ items, i.is_interruption = true → j.source = Source.stt →
        j.is_interruption = false → j.key < i.key)
    (h3 : ∃ it ∈ items, it.source = Source.stt) :
    ∃ sel, selectItem items = some sel ∧ sel ∈ items ∧ sel.source = Source.stt ∧
      ∀ x ∈ items, x.key ≤ sel.key := by
  have hsort : List.Sorted keyGE (sortByTimestampDesc items) := sortDesc_sorted items
  have hmem : ∀ x : Item, x ∈ sortByTimestampDesc items ↔ x ∈ items := fun x => mem_sortDesc
  have hint_stt : ∀ i ∈ items, i.is_interruption = true → i.source = Source.stt := by
    intro i hi hint
    by_contra hne
    have hfalse := ((h1 i hi).2 hne).2
    rw [hint] at hfalse
    simp at hfalse
  have hkey0 : ∀ x ∈ items, x.source ≠ Source.stt → x.key = 0 := by
    intro x hx hne
    have hnone := ((h1 x hx).2 hne).1
    simp [Item.key, hnone]
  cases hf : (sortByTimestampDesc items).filter (fun it => it.is_interruption) with
  | cons i rest =>
    have hi_filter : i ∈ (sortByTimestampDesc items).filter (fun it => it.is_interruption) := by
      rw [hf]; exact List.mem_cons_self _ _
    have hi_s : i ∈ sortByTimestampDesc items := List.mem_of_mem_filter hi_filter
    have hi_items : i ∈ items := (hmem i).1 hi_s
    have hi_int : i.is_interruption = true := by
      simpa using List.of_mem_filter hi_filter
    have hi_stt := hint_stt i hi_items hi_int
    have hi_pos : 0 < i.key := ((h1 i hi_items).1 hi_stt).2
    refine ⟨i, ?_, hi_items, hi_stt, ?_⟩
    · simp only [selectItem]
      rw [hf]
    · intro x hx
      by_cases hxint : x.is_interruption = true
      · have hx_s : x ∈ sortByTimestampDesc items := (hmem x).2 hx
        have hx_f : x ∈ (sortByTimestampDesc items).filter (fun it => it.is_interruption) :=
          List.mem_filter.2 ⟨hx_s, by simpa using hxint⟩
        rw [hf] at hx_f
        rcases List.mem_cons.1 hx_f with rfl | hx_rest
        · exact le_refl _
        · have hfs : List.Sorted keyGE (i :: rest) := by
            rw [← hf]
            exact List.Pairwise.sublist (List.filter_sublist _) hsort
          exact (List.sorted_cons.1 hfs).1 x hx_rest
      · by_cases hxstt : x.source = Source.stt
        · exact le_of_lt (h2 i hi_items x hx hi_int hxstt (Bool.of_not_eq_true hxint))
        · rw [hkey0 x hx hxstt]
          exact le_of_lt hi_pos
  | nil =>
    obtain ⟨y, hy, hy_stt⟩ := h3
    have hy_s : y ∈ sortByTimestampDesc items := (hmem y).2 hy
    obtain ⟨a, t, hst⟩ : ∃ a t, sortByTimestampDesc items = a :: t := by
      cases hcase : sortByTimestampDesc items with
      | nil =>
        rw [hcase] at hy_s
        exact absurd hy_s (List.not_mem_nil y)
      | cons a t => exact ⟨a, t, rfl⟩
    have ha_items : a ∈ items := (hmem a).1 (hst ▸ List.mem_cons_self a t)
    have hmax : ∀ x ∈ items, x.key ≤ a.key := by
      intro x hx
      have hx_s : x ∈ sortByTimestampDesc items := (hmem x).2 hx
      rw [hst] at hx_s
      rcases List.mem_cons.1 hx_s with rfl | hx_t
      · exact le_refl _
      · exact (List.sorted_cons.1 (hst ▸ hsort)).1 x hx_t
    have ha_pos : 0 < a.key := lt_of_lt_of_le ((h1 y hy).1 hy_stt).2 (hmax y hy)
    have ha_stt : a.source = Source.stt := by
      by_contra hne
      rw [hkey0 a ha_items hne] at ha_pos
      exact lt_irrefl 0 ha_pos
    refine ⟨a, ?_, ha_items, ha_stt, hmax⟩
    simp only [selectItem]
    rw [hf, hst]
    rfl

/-- What `_stt_callback` does when the player is speaking and a
response token is bound. -/
lemma sttCallback_playing (s : OrchState) (nickname text : String) (now : ℚ) (rid : String)
    (hplay : s.is_playing = true) (hrid : s.current_response_id = some rid) :
    sttCallback nickname text now s =
      { s with is_playing := false,
               interrupted_response := some ⟨rid, nickname, text, now⟩,
               tts_queue := [],
               history := dappend s.histCap s.history ⟨Role.system, interruptMsg nickname text⟩,
               llm_queue := (s.llm_queue.drop (s.llm_queue.length - 2)) ++
                 [mkSttItem nickname text true now] } := by
  simp [sttCallback, hplay, hrid, addSystemMessage, mkSttItem]

/-- C2 counterexample: a Speech event arriving while response `"r1"` is
playing records the InterruptionRecord while the current response token
is still `some "r1"` — it is not cleared to `None` first (nothing in
`_stt_callback` clears it). -/
theorem interruption_token_not_cleared_counterexample :
    (sttCallback "U" "stop" 5 playingState).interrupted_response =
      some { response_id := "r1", by_nickname := "U", by_text := "stop", timestamp := 5 } ∧
    (sttCallback "U" "stop" 5 playingState).current_response_id = some "r1" ∧
    (sttCallback "U" "stop" 5 playingState).current_response_id ≠ none := by
  refine ⟨rfl, rfl, by simp [sttCallback, playingState, addSystemMessage]⟩

/-- C2 (amended): for every interruption (a Speech event arriving while
a response is active), the arbiter stops playback (clears the playing
flag) and purges the TTS queue, and records the InterruptionRecord
referencing the still-current token; the current response token is NOT
cleared to `None` — it keeps its value and is only replaced when the
main loop later binds a fresh token. -/
theorem interruption_records_with_token_kept (s : OrchState) (nickname text : String)
    (now : ℚ) (rid : String)
    (hplay : s.is_playing = true) (hrid : s.current_response_id = some rid) :
    (sttCallback nickname text now s).interrupted_response =
      some { response_id := rid, by_nickname := nickname, by_text := text, timestamp := now } ∧
    (sttCallback nickname text now s).current_response_id = some rid ∧
    (sttCallback nickname text now s).is_playing = false ∧
    (sttCallback nickname text now s).tts_queue = [] := by
  rw [sttCallback_playing s nickname text now rid hplay hrid]
  exact ⟨rfl, hrid, rfl, rfl⟩

theorem interruption_records_with_token_kept_witness :
    playingState.is_playing = true ∧ playingState.current_response_id = some "r1" ∧
    ((sttCallback "바다" "잠깐만" 7 playingState).interrupted_response =
      some { response_id := "r1", by_nickname := "바다", by_text := "잠깐만", timestamp := 7 } ∧
    (sttCallback "바다" "잠깐만" 7 playingState).current_response_id = some "r1" ∧
    (sttCallback "바다" "잠깐만" 7 playingState).is_playing = false ∧
    (sttCallback "바다" "잠깐만" 7 playingState).tts_queue = []) :=
  ⟨rfl, rfl, interruption_records_with_token_kept playingState "바다" "잠깐만" 7 "r1" rfl rfl⟩

lemma dappend_of_room {α : Type} (cap : ℕ) (l : List α) (x : α) (h : l.length < cap) :
    dappend cap l x = l ++ [x] := by
  have h0 : cap ≠ 0 := by omega
  have h1 : ¬ cap ≤ l.length := by omega
  simp [dappend, h0, h1]

lemma countSys_append (h1 h2 : List HistMsg) (m : String) :
    countSys (h1 ++ h2) m = countSys h1 m + countSys h2 m := by
  simp [countSys, List.filter_append]

lemma countSys_single_match (m : String) :
    countSys [⟨Role.system, m⟩] m = 1 := by
  simp [countSys, matchesSys]

lemma countSys_single_role (r : Role) (t m : String) (hr : r ≠ Role.system) :
    countSys [⟨r, t⟩] m = 0 := by
  simp [countSys, matchesSys, hr]

lemma countSys_single_text (r : Role) (t m : String) (ht : t ≠ m) :
    countSys [⟨r, t⟩] m = 0 := by
  simp [countSys, matchesSys, ht]

/-- The two interruption-related system messages can never collide: the
callback's message and the main loop's acknowledgement differ already in
their fixed prefixes (character 6 is `A` versus `이`), whatever the
speaker names and texts are. -/
lemma interruptMsg_ne_ackMsg (n t m : String) : interruptMsg n t ≠ ackMsg m := by
  intro h
  have hd : (interruptMsg n t).data = (ackMsg m).data := congrArg String.data h
  simp only [interruptMsg, ackMsg, String.data_append] at hd
  have h6 := congrArg (fun l => l[6]?) hd
  simp only at h6
  rw [List.getElem?_append_left (by decide), List.getElem?_append_left (by decide)] at h6
  exact absurd h6 (by decide)

/-- If any drained item is an interruption, the main loop's selection
returns an interruption item. -/
lemma selectItem_interruption (l : List Item) (hx : ∃ it ∈ l, it.is_interruption = true) :
    ∃ sel, selectItem l = some sel ∧ sel.is_interruption = true := by
  obtain ⟨x, hx_mem, hx_int⟩ := hx
  have hx_s : x ∈ sortByTimestampDesc l := mem_sortDesc.2 hx_mem
  have hx_f : x ∈ (sortByTimestampDesc l).filter (fun it => it.is_interruption) :=
    List.mem_filter.2 ⟨hx_s, by simpa using hx_int⟩
  cases hf : (sortByTimestampDesc l).filter (fun it => it.is_interruption) with
  | nil =>
    rw [hf] at hx_f
    exact absurd hx_f (List.not_mem_nil x)
  | cons i rest =>
    refine ⟨i, ?_, ?_⟩
    · simp only [selectItem]
      rw [hf]
    · have hi_f : i ∈ (sortByTimestampDesc l).filter (fun it => it.is_interruption) := by
        rw [hf]
        exact List.mem_cons_self _ _
      simpa using List.of_mem_filter hi_f

/-- What one main-loop iteration does when the selected item is an
interruption and a record is pending: the record is consumed (cleared)
and the history receives the acknowledgement message followed by
whatever `generate_response` appends. -/
lemma mainLoopStep_consumes (s : OrchState) (llm : Except String String) (newRid : String)
    (it : Item) (r : InterruptionRecord)
    (hplay : s.is_playing = false)
    (hsel : selectItem s.llm_queue = some it)
    (hint : it.is_interruption = true)
    (hir : s.interrupted_response = some r) :
    (mainLoopStep llm newRid s).interrupted_response = none ∧
    (mainLoopStep llm newRid s).history =
      (generate_response llm (taskPromptFor it) s.histCap
        (dappend s.histCap s.history ⟨Role.system, ackMsg r.by_nickname⟩)).1 := by
  cases llm with
  | ok text =>
    by_cases hempty : text = "" <;>
      simp [mainLoopStep, hplay, hsel, hint, hir, addSystemMessage, generate_response, hempty]
  | error e =>
    have hne : apologyText ≠ "" := by decide
    simp [mainLoopStep, hplay, hsel, hint, hir, addSystemMessage, generate_response, hne]

/-- C3: Exactly-once interruption record: when a Speech event from
`nickname` with `text` arrives while response `rid` is active (playing,
token bound), the conversation history gains exactly one system entry
recording that the response was interrupted by that speaker with that
text, and the pending InterruptionRecord is consumed by the very next
main-loop run and only that run: that run selects an interruption item
and clears the record to `none`, after which no later run can observe
it; the recording entry still occurs exactly once after that run (the
main loop's acknowledgement message is a provably different string).
`hlen` gives the history cap room so the capped deque does not evict
the entry within the window. -/
theorem interruption_record_exactly_once
    (s : OrchState) (nickname text : String) (now : ℚ) (rid : String)
    (llm : Except String String) (newRid : String)
    (hplay : s.is_playing = true)
    (hrid : s.current_response_id = some rid)
    (hcount : countSys s.history (interruptMsg nickname text) = 0)
    (hlen : s.history.length + 4 ≤ s.histCap) :
    countSys (sttCallback nickname text now s).history (interruptMsg nickname text) = 1 ∧
    (sttCallback nickname text now s).interrupted_response =
      some ⟨rid, nickname, text, now⟩ ∧
    (∃ it, selectItem (sttCallback nickname text now s).llm_queue = some it ∧
      it.is_interruption = true) ∧
    (mainLoopStep llm newRid (sttCallback nickname text now s)).interrupted_response = none ∧
    countSys (mainLoopStep llm newRid (sttCallback nickname text now s)).history
      (interruptMsg nickname text) = 1 := by
  have hcb := sttCallback_playing s nickname text now rid hplay hrid
  have hroom0 : s.history.length < s.histCap := by omega
  have hh0 : dappend s.histCap s.history ⟨Role.system, interruptMsg nickname text⟩
      = s.history ++ [⟨Role.system, interruptMsg nickname text⟩] :=
    dappend_of_room _ _ _ hroom0
  have hhist : (sttCallback nickname text now s).history
      = s.history ++ [⟨Role.system, interruptMsg nickname text⟩] := by
    rw [hcb]
    exact hh0
  have hql : (sttCallback nickname text now s).llm_queue
      = (s.llm_queue.drop (s.llm_queue.length - 2)) ++ [mkSttItem nickname text true now] := by
    rw [hcb]
  have hplay' : (sttCallback nickname text now s).is_playing = false := by rw [hcb]
  have hir' : (sttCallback nickname text now s).interrupted_response
      = some ⟨rid, nickname, text, now⟩ := by rw [hcb]
  have hcap' : (sttCallback nickname text now s).histCap = s.histCap := by rw [hcb]
  have hcount1 : countSys (s.history ++ [⟨Role.system, interruptMsg nickname text⟩])
      (interruptMsg nickname text) = 1 := by
    rw [countSys_append, hcount, countSys_single_match]
  have hackne : ackMsg nickname ≠ interruptMsg nickname text :=
    Ne.symm (interruptMsg_ne_ackMsg nickname text nickname)
  obtain ⟨it, hsel, hint⟩ := selectItem_interruption
    ((sttCallback nickname text now s).llm_queue)
    ⟨mkSttItem nickname text true now, by rw [hql]; simp, rfl⟩
  have hstep := mainLoopStep_consumes (sttCallback nickname text now s) llm newRid it
    ⟨rid, nickname, text, now⟩ hplay' hsel hint hir'
  refine ⟨by rw [hhist]; exact hcount1, hir', ⟨it, hsel, hint⟩, hstep.1, ?_⟩
  rw [hstep.2, hcap', hhist]
  have hroom1 : (s.history ++ [(⟨Role.system, interruptMsg nickname text⟩ : HistMsg)]).length
      < s.histCap := by
    simp only [List.length_append, List.length_singleton]
    omega
  rw [dappend_of_room _ _ _ hroom1]
  cases llm with
  | error e =>
    show countSys ((s.history ++ [⟨Role.system, interruptMsg nickname text⟩]) ++
        [⟨Role.system, ackMsg nickname⟩]) (interruptMsg nickname text) = 1
    rw [countSys_append, hcount1, countSys_single_text _ _ _ hackne]
  | ok text2 =>
    show countSys
        (dappend s.histCap
          (dappend s.histCap
            ((s.history ++ [⟨Role.system, interruptMsg nickname text⟩]) ++
              [⟨Role.system, ackMsg nickname⟩])
            ⟨Role.user, taskPromptFor it⟩)
          ⟨Role.model, text2⟩) (interruptMsg nickname text) = 1
    have hroom2 : ((s.history ++ [(⟨Role.system, interruptMsg nickname text⟩ : HistMsg)]) ++
        [(⟨Role.system, ackMsg nickname⟩ : HistMsg)]).length < s.histCap := by
      simp only [List.length_append, List.length_singleton]
      omega
    rw [dappend_of_room _ _ _ hroom2]
    have hroom3 : (((s.history ++ [(⟨Role.system, interruptMsg nickname text⟩ : HistMsg)]) ++
        [(⟨Role.system, ackMsg nickname⟩ : HistMsg)]) ++
        [(⟨Role.user, taskPromptFor it⟩ : HistMsg)]).length < s.histCap := by
      simp only [List.length_append, List.length_singleton]
      omega
    rw [dappend_of_room _ _ _ hroom3]
    rw [countSys_append, countSys_append, countSys_append, hcount1]
    rw [countSys_single_text _ _ _ hackne,
        countSys_single_role Role.user _ _ (by decide),
        countSys_single_role Role.model _ _ (by decide)]

theorem interruption_record_exactly_once_witness :
    playingState.is_playing = true ∧
    playingState.current_response_id = some "r1" ∧
    countSys playingState.history (interruptMsg "U" "wait stop") = 0 ∧
    playingState.history.length + 4 ≤ playingState.histCap ∧
    (countSys (sttCallback "U" "wait stop" 5 playingState).history
        (interruptMsg "U" "wait stop") = 1 ∧
      (sttCallback "U" "wait stop" 5 playingState).interrupted_response =
        some ⟨"r1", "U", "wait stop", 5⟩ ∧
      (∃ it, selectItem (sttCallback "U" "wait stop" 5 playingState).llm_queue = some it ∧
        it.is_interruption = true) ∧
      (mainLoopStep (Except.ok "answer") "r2"
        (sttCallback "U" "wait stop" 5 playingState)).interrupted_response = none ∧
      countSys (mainLoopStep (Except.ok "answer") "r2"
        (sttCallback "U" "wait stop" 5 playingState)).history
        (interruptMsg "U" "wait stop") = 1) :=
  ⟨rfl, rfl, rfl, by decide,
    interruption_record_exactly_once playingState "U" "wait stop" 5 "r1"
      (Except.ok "answer") "r2" rfl rfl rfl (by decide)⟩

/-- C4 counterexample: with the configuration key absent the code's
Bernoulli threshold is 0.1, not the claimed 0.3: a draw of 0.2 (which
is below 0.3) produces no LLM input event even though the player is
idle; the chat line still enters the rolling window. -/
theorem chat_chance_default_counterexample :
    ((1 : ℚ) / 5 < 3 / 10) ∧
    (chatCallback { response_chance := none } "Alice" "hi" (1 / 5) idleState).llm_queue = [] ∧
    (chatCallback { response_chance := none } "Alice" "hi" (1 / 5) idleState).recent_chats =
      ["[Alice] hi"] := by
  refine ⟨by norm_num, ?_, ?_⟩ <;>
    norm_num [chatCallback, responseChance, idleState, dappend] <;> rfl

/-- C4 (amended): for every incoming chat line, the line is appended to
the rolling chat window unconditionally; the line becomes an LLM input
event exactly when the Bernoulli trial with probability
`response_chance` succeeds AND the audio player is not currently
playing, where `response_chance` defaults to 0.1 (not 0.3) when the
configuration key is absent. -/
theorem chat_bernoulli_gate (cfg : Config) (user message : String) (rand : ℚ)
    (s : OrchState) :
    (chatCallback cfg user message rand s).recent_chats =
      dappend s.chatCap s.recent_chats ("[" ++ (user ++ ("] " ++ message))) ∧
    ((chatCallback cfg user message rand s).llm_queue =
        s.llm_queue ++ [mkChatItem user message] ↔
      rand < responseChance cfg ∧ s.is_playing = false) ∧
    responseChance { response_chance := none } = 1 / 10 := by
  refine ⟨?_, ?_, rfl⟩
  · by_cases h1 : rand < responseChance cfg
    · cases h2 : s.is_playing <;> simp [chatCallback, h1, h2]
    · simp [chatCallback, h1]
  · constructor
    · intro h
      by_cases h1 : rand < responseChance cfg
      · cases h2 : s.is_playing
        · exact ⟨h1, rfl⟩
        · exfalso
          simp [chatCallback, h1, h2] at h
      · exfalso
        simp [chatCallback, h1] at h
    · rintro ⟨h1, h2⟩
      simp [chatCallback, h1, h2]

set_option maxRecDepth 20000 in
/-- C7 counterexample: the prompt assembled with every optional section
empty contains the placeholder "(No recent chats)" and does not contain
the literal "(none)" anywhere; the empty previous-chat section is
emitted as "(No previous chats)", not "(none)". -/
theorem prompt_no_none_placeholder_counterexample :
    containsSub
      (buildPrompt "P" "D" "No core memories stored yet." [] [] mkIdleItem [] []).data
      "(none)".data = false ∧
    containsSub
      (buildPrompt "P" "D" "No core memories stored yet." [] [] mkIdleItem [] []).data
      "(No recent chats)".data = true ∧
    previousChatText [] = "(No previous chats)" := by
  refine ⟨?_, ?_, rfl⟩ <;> decide

/-- C7 (amended): the assembled prompt has its sections in the fixed
order persona, current date/time, optional core-memory summary (skipped
entirely — not emitted with a placeholder — when there are no core
memories), long-term memory, previous chat log, conversation history,
recent chat log, current task; each empty section is emitted with its
own section-specific placeholder literal — "No long-term memories
yet.", "(No previous chats)", "(No conversation history yet)",
"(No recent chats)" — none of which is the literal "(none)" (and an
empty persona is emitted as the empty string with no placeholder). -/
theorem prompt_sections_and_placeholders (persona dt core : String) (item : Item) :
    buildPrompt persona dt core [] [] item [] [] =
      "# System Persona\n" ++ (persona ++ ("\n\n# Current Date and Time\n" ++ (dt ++ ("\n"
        ++ (coreMemoryInfo core
        ++ ("\n# Long-Term Memory\n" ++ ("No long-term memories yet."
        ++ ("\n\n# Previous Live Chat Log\n" ++ ("(No previous chats)"
        ++ ("\n\n# Conversation History\n" ++ ("(No conversation history yet)"
        ++ ("\n\n# Recent Live Chat Log\n" ++ ("(No recent chats)"
        ++ ("\n\n# Current Task\n" ++ (taskPromptFor item ++ "\n"))))))))))))))) ∧
    ("(No previous chats)" : String) ≠ "(none)" ∧
    ("(No recent chats)" : String) ≠ "(none)" ∧
    ("No long-term memories yet." : String) ≠ "(none)" ∧
    ("(No conversation history yet)" : String) ≠ "(none)" := by
  exact ⟨rfl, by decide, by decide, by decide, by decide⟩

/-- C8: for every prompt, if the language-model generation call fails
(raises or times out), `generate_response` returns the fixed apology
text instead of propagating the error and leaves the history untouched;
the main-loop worker continues and enqueues the apology for TTS, so the
apology is published as the response. -/
theorem llm_failure_returns_apology (e task : String) (cap : ℕ) (history : List HistMsg)
    (s : OrchState) (newRid : String)
    (hplay : s.is_playing = false)
    (hq : selectItem s.llm_queue ≠ none) :
    (generate_response (Except.error e) task cap history).2 = apologyText ∧
    (generate_response (Except.error e) task cap history).1 = history ∧
    (mainLoopStep (Except.error e) newRid s).tts_queue =
      s.tts_queue ++ [{ text := apologyText, response_id := newRid }] := by
  refine ⟨rfl, rfl, ?_⟩
  obtain ⟨item, hsel⟩ : ∃ it, selectItem s.llm_queue = some it := by
    cases h : selectItem s.llm_queue with
    | none => exact absurd h hq
    | some it => exact ⟨it, rfl⟩
  have hne : apologyText ≠ "" := by decide
  cases hint : item.is_interruption with
  | true =>
    cases hir : s.interrupted_response with
    | some r =>
      simp [mainLoopStep, hplay, hsel, hint, hir, generate_response, addSystemMessage, hne]
    | none =>
      simp [mainLoopStep, hplay, hsel, hint, hir, generate_response, hne]
  | false =>
    simp [mainLoopStep, hplay, hsel, hint, generate_response, hne]

theorem llm_failure_returns_apology_witness :
    queuedState.is_playing = false ∧
    selectItem queuedState.llm_queue ≠ none ∧
    ((generate_response (Except.error "boom") "A: hi" 20 []).2 = apologyText ∧
    (generate_response (Except.error "boom") "A: hi" 20 []).1 = [] ∧
    (mainLoopStep (Except.error "boom") "r2" queuedState).tts_queue =
      queuedState.tts_queue ++ [{ text := apologyText, response_id := "r2" }]) :=
  ⟨rfl, by decide,
    llm_failure_returns_apology "boom" "A: hi" 20 [] queuedState "r2" rfl (by decide)⟩

/-- C9 counterexample: for the one-sample chunk `[32767]` the RMS is
32767 and the delivered loudness is 327670/32768 ≈ 10.0 — far outside
[0,1], so no clipping is applied; and the fixed gain divides by 32768
(2¹⁵), not by INT16_MAX = 32767. -/
theorem loudness_not_clipped_counterexample :
    (0 : ℚ) ≤ 32767 ∧
    (32767 : ℚ) ^ 2 = rmsSq [(32767 : ℤ)] ∧
    1 < normalized_volume 32767 ∧
    normalized_volume 32767 ≠ 32767 * 10 / 32767 := by
  norm_num [rmsSq, normalized_volume]

/-- C9 (amended): the loudness delivered to the volume callback equals
(RMS/32768)×10 where RMS is the square root of the chunk's mean square;
it is nonnegative, but it is NOT clipped to [0,1]: it exceeds 1 exactly
when RMS > 3276.8, and for int16-range samples it is only bounded by
10. -/
theorem loudness_formula (chunk : List ℤ) (rms : ℚ)
    (hne : chunk ≠ []) (h0 : 0 ≤ rms) (h2 : rms ^ 2 = rmsSq chunk)
    (hrange : ∀ x ∈ chunk, -32768 ≤ x ∧ x ≤ 32767) :
    0 ≤ normalized_volume rms ∧
    (1 < normalized_volume rms ↔ 16384 / 5 < rms) ∧
    normalized_volume rms ≤ 10 := by
  have hnv : normalized_volume rms = rms / 32768 * 10 := rfl
  refine ⟨by rw [hnv]; positivity, ?_, ?_⟩
  · rw [hnv]
    constructor
    · intro h
      nlinarith
    · intro h
      nlinarith
  · have hsumle : (chunk.map (fun x => (Int.cast x : ℚ) ^ 2)).sum ≤
        (chunk.map (fun x => (Int.cast x : ℚ) ^ 2)).length • ((32768 : ℚ) ^ 2) := by
      apply List.sum_le_card_nsmul
      intro y hy
      obtain ⟨x, hx_mem, rfl⟩ := List.mem_map.1 hy
      have hb := hrange x hx_mem
      have hb1 : -(32768 : ℚ) ≤ (Int.cast x : ℚ) := by exact_mod_cast hb.1
      have hb2 : (Int.cast x : ℚ) ≤ 32768 := by
        have hx7 : (Int.cast x : ℚ) ≤ 32767 := by exact_mod_cast hb.2
        linarith
      exact sq_le_sq' hb1 hb2
    have hlenpos : 0 < (chunk.length : ℚ) := by
      have hlp : 0 < chunk.length := List.length_pos.2 hne
      exact_mod_cast hlp
    have hmean : rmsSq chunk ≤ (32768 : ℚ) ^ 2 := by
      rw [rmsSq]
      rw [div_le_iff₀ hlenpos]
      calc (chunk.map (fun x => (Int.cast x : ℚ) ^ 2)).sum
          ≤ (chunk.map (fun x => (Int.cast x : ℚ) ^ 2)).length • ((32768 : ℚ) ^ 2) := hsumle
        _ = (chunk.length : ℚ) * (32768 : ℚ) ^ 2 := by
            rw [List.length_map, nsmul_eq_mul]
        _ = (32768 : ℚ) ^ 2 * (chunk.length : ℚ) := by ring
    have hrms : rms ≤ 32768 := by nlinarith [h2, hmean]
    rw [hnv]
    linarith

theorem loudness_formula_witness :
    (([3, 4, 0, 0] : List ℤ) ≠ []) ∧ ((0 : ℚ) ≤ 5 / 2) ∧
    ((5 / 2 : ℚ) ^ 2 = rmsSq [3, 4, 0, 0]) ∧
    (∀ x ∈ ([3, 4, 0, 0] : List ℤ), -32768 ≤ x ∧ x ≤ 32767) ∧
    (0 ≤ normalized_volume (5 / 2) ∧
     (1 < normalized_volume (5 / 2) ↔ 16384 / 5 < (5 / 2 : ℚ)) ∧
     normalized_volume (5 / 2) ≤ 10) :=
  ⟨by decide, by norm_num, by norm_num [rmsSq], by decide,
    loudness_formula [3, 4, 0, 0] (5 / 2) (by decide) (by norm_num)
      (by norm_num [rmsSq]) (by decide)⟩

/-- C10: implicit re-entrancy guard: if `AudioPlayer.is_playing` is
already set, `play_stream` returns immediately — the state (including
the open stream) is unchanged, `is_playing` is unchanged, and zero
elements of the audio generator are consumed — so a second simultaneous
playback can never start. -/
theorem play_stream_reentrancy_guard (s : PlayerState) (gen : List (List ℤ))
    (h : s.is_playing = true) :
    play_stream s gen = (s, 0) := by
  simp [play_stream, h]

theorem play_stream_reentrancy_guard_witness :
    ({ is_playing := true, stream_open := true } : PlayerState).is_playing = true ∧
    play_stream { is_playing := true, stream_open := true } [[1, 2], [3]] =
      ({ is_playing := true, stream_open := true }, 0) :=
  ⟨rfl, play_stream_reentrancy_guard { is_playing := true, stream_open := true }
    [[1, 2], [3]] rfl⟩

theorem newest_speech_wins_witness :
    ∃ sel, selectItem [mkChatItem "Alice" "hi", mkSttItem "U" "a" false 1,
        mkSttItem "U" "c" false 3, mkSttItem "U" "b" false 2] = some sel ∧
      sel ∈ [mkChatItem "Alice" "hi", mkSttItem "U" "a" false 1,
        mkSttItem "U" "c" false 3, mkSttItem "U" "b" false 2] ∧
      sel.source = Source.stt ∧
      ∀ x ∈ [mkChatItem "Alice" "hi", mkSttItem "U" "a" false 1,
        mkSttItem "U" "c" false 3, mkSttItem "U" "b" false 2], x.key ≤ sel.key :=
  newest_speech_wins
    [mkChatItem "Alice" "hi", mkSttItem "U" "a" false 1,
      mkSttItem "U" "c" false 3, mkSttItem "U" "b" false 2]
    (by decide) (by decide) (by decide)

end AIRIS
